import Mathlib

/-!
Verification of the Resource Action Safety & Audit Subsystem of
sneaksoft/aws-monitor, together with the frontend API client in
frontend/src/services and the ConfirmDialog component.

The backend service (FastAPI, backend/app) is not part of the source tree
available here; the policy engine, executor and audit recorder are modelled
from the specification (sections 2, 4.1-4.5 of spec.md), faithful to its
words.  The frontend TypeScript files (services/api.ts, services/resources.ts,
services/audit.ts, components/common/ConfirmDialog.tsx, pages/Inventory.tsx,
pages/Audit.tsx) are embedded directly from the source.
-/

/-! ## Data model (spec section 3) -/

/-- Per-resource outcome status: success, failed, dry_run, or blocked. -/
inductive OutcomeStatus : Type
| success
| failed
| dryRun
| blocked
deriving DecidableEq, Repr

/-- One ActionRequest: resource ids, action, resource type, dry-run flag and
optional override code. -/
structure ActionRequest where
  resourceType : String
  action : String
  resourceIds : List String
  dryRun : Bool
  overrideCode : Option String
deriving DecidableEq, Repr

/-- Per-resource ActionOutcome. -/
structure ActionOutcome where
  resourceId : String
  status : OutcomeStatus
  message : String
deriving DecidableEq, Repr

/-- One immutable audit record, one per attempted action per resource id.
The request data field is the normalized request after redaction, held as a
list of JSON-like key/value pairs. -/
structure AuditLogEntry where
  action : String
  resourceType : String
  resourceId : String
  status : OutcomeStatus
  requestData : List (String × String)
deriving DecidableEq, Repr

/-! ## ProtectionPolicyEngine (spec section 4.1) -/

/-- Configuration supplied to the policy engine: protection rules as
(tag_key, tag_value) pairs, the set of actions requiring override when the
target is protected, and the override secret. -/
structure PolicyConfig where
  rules : List (String × String)
  destructiveActions : List String
  overrideSecret : String
deriving DecidableEq, Repr

/-- Modelled from the spec: a resource is protected if any of its tags
matches any rule entry by key and by value (case-sensitive exact match). -/
def isProtected (rules : List (String × String)) (tags : List (String × String)) : Bool :=
  tags.any (fun t => rules.contains t)

/-- Modelled from the spec: whether the requested action is classified
destructive or disruptive, hence requires override on protected targets. -/
def requiresOverride (cfg : PolicyConfig) (action : String) : Bool :=
  cfg.destructiveActions.contains action

/-- Modelled from the spec: the constant-time comparison of the supplied
override code against the configured secret.  Timing is not observable in
this embedding; functionally the comparison is string equality. -/
def secureCompare (a b : String) : Bool :=
  a == b

/-- Result of the policy evaluation. -/
structure PolicyDecision where
  allowed : Bool
  reason : Option String
deriving DecidableEq, Repr

/-- Modelled from the spec: evaluate(resource_tags, action, override_code).
If protected and the action requires override, a missing or mismatched code
yields allowed=false with reason override_required; otherwise allowed. -/
def evaluate (cfg : PolicyConfig) (tags : List (String × String))
    (action : String) (overrideCode : Option String) : PolicyDecision :=
  if isProtected cfg.rules tags && requiresOverride cfg action then
    match overrideCode with
    | some c =>
        if secureCompare c cfg.overrideSecret then ⟨true, none⟩
        else ⟨false, some "override_required"⟩
    | none => ⟨false, some "override_required"⟩
  else ⟨true, none⟩

/-! ## ActionExecutor and AuditRecorder (spec sections 4.2-4.4) -/

/-- The environment of one run: the loaded configuration, the resource
metadata provider getTags, and the external service, modelled as a function
from resource id to the result of the one mutating call the adapter would
issue for it (ok message or error detail). -/
structure Env where
  cfg : PolicyConfig
  getTags : String → List (String × String)
  callResult : String → Except String String

/-- Modelled from the spec: the normalized request as stored in
request_data, after override_code redaction — the override code value is
replaced by a redaction marker, never stored in plaintext. -/
def redactRequest (req : ActionRequest) : List (String × String) :=
  [("resource_type", req.resourceType),
   ("action", req.action),
   ("resource_ids", String.intercalate "," req.resourceIds),
   ("dry_run", toString req.dryRun)] ++
  (match req.overrideCode with
   | some _ => [("override_code", "[REDACTED]")]
   | none => [])

/-- Build the audit entry for one computed outcome (spec section 4.4). -/
def mkEntry (req : ActionRequest) (o : ActionOutcome) : AuditLogEntry :=
  { action := req.action
  , resourceType := req.resourceType
  , resourceId := o.resourceId
  , status := o.status
  , requestData := redactRequest req }

/-- Modelled from the spec, section 4.3 steps 1-4: process one resource id.
Policy check first; if blocked, status=blocked and no adapter call; else if
dry_run, status=dry_run and no mutating call; else one mutating external
call whose error is mapped to status=failed.  The second component lists
the resource ids for which a mutating external call was issued. -/
def execOne (env : Env) (req : ActionRequest) (rid : String) :
    ActionOutcome × List String :=
  let d := evaluate env.cfg (env.getTags rid) req.action req.overrideCode
  if d.allowed then
    if req.dryRun then
      ({ resourceId := rid, status := .dryRun, message := "dry run" }, [])
    else
      match env.callResult rid with
      | .ok m => ({ resourceId := rid, status := .success, message := m }, [rid])
      | .error e => ({ resourceId := rid, status := .failed, message := e }, [rid])
  else
    ({ resourceId := rid, status := .blocked, message := "override_required" }, [])

/-- The result of one run: per-id outcomes in input order, the audit rows
written, and the mutating external calls issued. -/
structure RunResult where
  outcomes : List ActionOutcome
  audit : List AuditLogEntry
  mutatingCalls : List String
deriving DecidableEq, Repr

/-- Modelled from the spec, section 4.3 step 5: the executor processes every
resource id independently, in input order, and emits one AuditLogEntry per
id unconditionally, whatever the outcome. -/
def specRun (env : Env) (req : ActionRequest) : RunResult :=
  let results := req.resourceIds.map (fun rid => execOne env req rid)
  { outcomes := results.map Prod.fst
  , audit := results.map (fun r => mkEntry req r.fst)
  , mutatingCalls := (results.map Prod.snd).flatten }

/-- Modelled from the repository functional audit report (GAP-001, Critical:
failed AWS operations are not audited — the audit write is reached only on
the non-error path): identical to specRun except that outcomes with
status=failed produce no audit row. -/
def reportedRun (env : Env) (req : ActionRequest) : RunResult :=
  let results := req.resourceIds.map (fun rid => execOne env req rid)
  { outcomes := results.map Prod.fst
  , audit := (results.filter (fun r => !(r.fst.status == .failed))).map
      (fun r => mkEntry req r.fst)
  , mutatingCalls := (results.map Prod.snd).flatten }

/-- Modelled from the spec, section 4.5: aggregate response status is
success if all outcomes succeeded or were dry_run, failed otherwise (in
particular whenever any outcome failed). -/
def aggregateStatus (outcomes : List ActionOutcome) : OutcomeStatus :=
  if outcomes.all (fun o => o.status == .success || o.status == .dryRun) then
    .success
  else
    .failed

/-! ## Frontend API client, embedded from frontend/src/services/resources.ts -/

/-- HTTP method of a client request. -/
inductive HttpMethod : Type
| get
| post
| put
deriving DecidableEq, Repr

/-- One request issued by the frontend client: method, path and the JSON
body fields actually sent.  Keys whose TypeScript value is undefined are
dropped by JSON serialization, hence override_code is an Option; the
action-specific parameters are extra body fields rendered as strings. -/
structure ApiCall where
  method : HttpMethod
  path : String
  resource_ids : List String
  dry_run : Bool
  override_code : Option String
  extraParams : List (String × String)
deriving DecidableEq, Repr

namespace actionsApi

/-- ec2Start: POST /actions/ec2/start with resource_ids and dry_run
(dryRun defaults to true). -/
def ec2Start (instanceIds : List String) (dryRun : Bool := true) : ApiCall :=
  { method := .post, path := "/actions/ec2/start"
  , resource_ids := instanceIds, dry_run := dryRun
  , override_code := none, extraParams := [] }

/-- ec2Stop: POST /actions/ec2/stop with resource_ids, dry_run and the
optional override_code (dryRun defaults to true). -/
def ec2Stop (instanceIds : List String) (dryRun : Bool := true)
    (overrideCode : Option String := none) : ApiCall :=
  { method := .post, path := "/actions/ec2/stop"
  , resource_ids := instanceIds, dry_run := dryRun
  , override_code := overrideCode, extraParams := [] }

/-- ec2Terminate: POST /actions/ec2/terminate with resource_ids, dry_run
and the optional override_code (dryRun defaults to true). -/
def ec2Terminate (instanceIds : List String) (dryRun : Bool := true)
    (overrideCode : Option String := none) : ApiCall :=
  { method := .post, path := "/actions/ec2/terminate"
  , resource_ids := instanceIds, dry_run := dryRun
  , override_code := overrideCode, extraParams := [] }

/-- rdsStart: POST /actions/rds/start with resource_ids=[dbIdentifier],
db_instance_identifier and dry_run (dryRun defaults to true). -/
def rdsStart (dbIdentifier : String) (dryRun : Bool := true) : ApiCall :=
  { method := .post, path := "/actions/rds/start"
  , resource_ids := [dbIdentifier], dry_run := dryRun
  , override_code := none
  , extraParams := [("db_instance_identifier", dbIdentifier)] }

/-- rdsStop: POST /actions/rds/stop with resource_ids=[dbIdentifier],
db_instance_identifier, dry_run and the optional override_code
(dryRun defaults to true). -/
def rdsStop (dbIdentifier : String) (dryRun : Bool := true)
    (overrideCode : Option String := none) : ApiCall :=
  { method := .post, path := "/actions/rds/stop"
  , resource_ids := [dbIdentifier], dry_run := dryRun
  , override_code := overrideCode
  , extraParams := [("db_instance_identifier", dbIdentifier)] }

/-- ecsScale: api.put to /actions/ecs/scale with
resource_ids=[cluster/service], cluster, service, desired_count and
dry_run (dryRun defaults to true). -/
def ecsScale (cluster service : String) (desiredCount : Int)
    (dryRun : Bool := true) : ApiCall :=
  { method := .put, path := "/actions/ecs/scale"
  , resource_ids := [cluster ++ "/" ++ service], dry_run := dryRun
  , override_code := none
  , extraParams := [("cluster", cluster), ("service", service),
                    ("desired_count", toString desiredCount)] }

end actionsApi

/-! ## Audit API client, embedded from frontend/src/services/audit.ts,
and its caller on the Audit page (frontend/src/pages/Audit.tsx). -/

/-- The AuditFilters interface of services/audit.ts. -/
structure AuditFilters where
  action : Option String
  resource_type : Option String
  user_email : Option String
  start_date : Option String
  end_date : Option String
  status : Option String
deriving DecidableEq, Repr

/-- Query parameters built by auditApi.list: each present filter is
appended, then page and page_size. -/
def auditListParams (f : AuditFilters) (page pageSize : Nat) :
    List (String × String) :=
  (match f.action with | some v => [("action", v)] | none => []) ++
  (match f.resource_type with | some v => [("resource_type", v)] | none => []) ++
  (match f.user_email with | some v => [("user_email", v)] | none => []) ++
  (match f.start_date with | some v => [("start_date", v)] | none => []) ++
  (match f.end_date with | some v => [("end_date", v)] | none => []) ++
  (match f.status with | some v => [("status", v)] | none => []) ++
  [("page", toString page), ("page_size", toString pageSize)]

/-- The auditApi object of services/audit.ts, embedded as a lookup from
member name to the request-building operation.  The source defines exactly
one member, list, which issues GET /audit with the filter parameters. -/
def auditApiLookup : String → Option (AuditFilters → Nat → Nat → List (String × String))
  | "list" => some auditListParams
  | _ => none

/-- The member names auditApi actually defines in services/audit.ts. -/
def auditApiMembers : List String := ["list"]

/-- The auditApi member name that handleExport on the Audit page
(pages/Audit.tsx) invokes for both the CSV and the JSON buttons:
await auditApi.export(filters, format). -/
def auditPageExportMember : String := "export"

/-! ## Shared axios client interceptors, embedded from
frontend/src/services/api.ts. -/

/-- The part of an axios error the response interceptor inspects:
error.response?.status (none when there is no response). -/
structure AxiosErrorLike where
  status : Option Nat
deriving DecidableEq, Repr

/-- Outcome of the interceptor as a promise: resolved or rejected with the
original error. -/
inductive PromiseOutcome : Type
| resolved
| rejected (e : AxiosErrorLike)
deriving DecidableEq, Repr

/-- Side effects the response error interceptor may perform: the call to
useAuthStore logout, and the assignment to window.location.href. -/
structure InterceptorEffects where
  logoutCalled : Bool
  redirectTo : Option String
deriving DecidableEq, Repr

/-- The response error interceptor of api.ts: on HTTP 401 it calls logout
and sets window.location.href to /login; in every case it returns
Promise.reject(error) with the error unchanged. -/
def onResponseError (e : AxiosErrorLike) : InterceptorEffects × PromiseOutcome :=
  if e.status = some 401 then
    ({ logoutCalled := true, redirectTo := some "/login" }, .rejected e)
  else
    ({ logoutCalled := false, redirectTo := none }, .rejected e)

/-- The response success interceptor of api.ts: (response) => response. -/
def onResponseSuccess {α : Type} (r : α) : α := r

/-! ## ConfirmDialog, embedded from
frontend/src/components/common/ConfirmDialog.tsx, and its terminate wiring
on the Inventory page (frontend/src/pages/Inventory.tsx). -/

/-- The local state of an open ConfirmDialog: the typed input value. -/
structure DialogState where
  inputValue : String
deriving DecidableEq, Repr

/-- Events an open dialog can receive: an input change, a click on the
Confirm button, or a close (Cancel button, X button or backdrop click). -/
inductive DialogEvent : Type
| setInput (s : String)
| clickConfirm
| clickClose
deriving DecidableEq, Repr

/-- Whether the dialog fired its onConfirm or onClose callback. -/
structure DialogEffects where
  confirmFired : Bool
  closeFired : Bool
deriving DecidableEq, Repr

/-- One step of the dialog, given its confirmText prop.  handleConfirm runs
onConfirm and clears the input only when isConfirmEnabled, that is when
inputValue === confirmText (the Confirm button is also disabled otherwise);
handleClose clears the input and runs onClose. -/
def dialogStep (confirmText : String) (st : DialogState) :
    DialogEvent → DialogState × DialogEffects
  | .setInput s => ({ inputValue := s }, ⟨false, false⟩)
  | .clickConfirm =>
      if st.inputValue == confirmText then
        ({ inputValue := "" }, ⟨true, false⟩)
      else
        (st, ⟨false, false⟩)
  | .clickClose => ({ inputValue := "" }, ⟨false, true⟩)

/-- The Inventory page wires the terminate ConfirmDialog with
confirmText := confirmDialog.resourceId and
onConfirm := terminateMutation.mutate([confirmDialog.resourceId]).
The second component is the argument of the terminate mutation when it
fires, none otherwise. -/
def inventoryTerminateStep (resourceId : String) (st : DialogState)
    (ev : DialogEvent) : DialogState × Option (List String) :=
  let r := dialogStep resourceId st ev
  (r.fst, if r.snd.confirmFired then some [resourceId] else none)

/-! ## Concrete scenarios -/

/-- The protection configuration of the concrete scenarios: env=production
is protected, stop/terminate/delete require override, secret S3CRET. -/
def scenarioCfg : PolicyConfig :=
  { rules := [("env", "production")]
  , destructiveActions := ["stop", "terminate", "delete"]
  , overrideSecret := "S3CRET" }

/-- The account of the spec concrete scenario: i-aaa carries
env=production (protected), i-bbb carries env=dev (unprotected); the
external stop call succeeds on every instance. -/
def scenarioEnv : Env :=
  { cfg := scenarioCfg
  , getTags := fun rid =>
      if rid == "i-aaa" then [("env", "production")] else [("env", "dev")]
  , callResult := fun _ => .ok "stopped" }

/-- The spec concrete scenario request: ec2 stop of [i-aaa, i-bbb] with
dry_run=false and the wrong override code. -/
def scenarioReq : ActionRequest :=
  { resourceType := "ec2", action := "stop"
  , resourceIds := ["i-aaa", "i-bbb"]
  , dryRun := false, overrideCode := some "WRONG" }

/-- An account with no protected resources where the external call fails
on i-2 with an error and succeeds elsewhere. -/
def failingEnv : Env :=
  { cfg := scenarioCfg
  , getTags := fun _ => [("env", "dev")]
  , callResult := fun rid =>
      if rid == "i-2" then .error "InstanceNotFound" else .ok "stopped" }

/-- A two-id ec2 stop request with dry_run=false and no override code. -/
def failingReq2 : ActionRequest :=
  { resourceType := "ec2", action := "stop"
  , resourceIds := ["i-2", "i-3"]
  , dryRun := false, overrideCode := none }

/-- A three-id ec2 stop request with dry_run=false and no override code,
whose second id is the one that fails in failingEnv. -/
def failingReq3 : ActionRequest :=
  { resourceType := "ec2", action := "stop"
  , resourceIds := ["i-1", "i-2", "i-3"]
  , dryRun := false, overrideCode := none }

/-- The dry-run variant of the spec concrete scenario: same two ids and
wrong override code, but dry_run=true. -/
def scenarioDryReq : ActionRequest :=
  { resourceType := "ec2", action := "stop"
  , resourceIds := ["i-aaa", "i-bbb"]
  , dryRun := true, overrideCode := some "WRONG" }

/-! ## Helper lemmas -/

/-- Under dry_run=true, one processing step issues no mutating call and
ends in status dry_run or, when the policy blocks it, blocked. -/
theorem execOne_dryRun (env : Env) (req : ActionRequest) (rid : String)
    (h : req.dryRun = true) :
    (execOne env req rid).snd = [] ∧
      ((execOne env req rid).fst.status = .dryRun ∨
       (execOne env req rid).fst.status = .blocked) := by
  unfold execOne
  cases hd : (evaluate env.cfg (env.getTags rid) req.action req.overrideCode).allowed <;>
    simp [hd, h]

/-! ## Claims C1-C3 -/

/-- Claim C1: processing an ActionRequest with N resource ids should create
exactly N AuditLogEntry rows regardless of each outcome.  The repository
functional audit report (GAP-001, Critical, issue «Audit logging missing for
failed AWS operations - Bug, P1») records that the implementation does not
audit failed operations: on a two-id batch whose first external call fails,
the implemented behaviour writes one audit row for two attempts, while the
mandated behaviour writes two. -/
theorem c1_failed_action_unaudited :
    failingReq2.resourceIds.length = 2 ∧
    ((reportedRun failingEnv failingReq2).outcomes.map ActionOutcome.status) =
      [.failed, .success] ∧
    (reportedRun failingEnv failingReq2).audit.length = 1 ∧
    (specRun failingEnv failingReq2).audit.length = 2 := by
  decide

/-- Claim C2: for a resource whose tags match a protection rule and an
action classified destructive, a missing or mismatched override code makes
the policy engine return allowed=false with reason override_required, the
outcome status blocked (distinct from failed), and no mutating external
call for that resource. -/
theorem c2_override_required_blocks (env : Env) (req : ActionRequest)
    (rid : String)
    (hprot : isProtected env.cfg.rules (env.getTags rid) = true)
    (hdest : requiresOverride env.cfg req.action = true)
    (hcode : ∀ c, req.overrideCode = some c →
      secureCompare c env.cfg.overrideSecret = false) :
    evaluate env.cfg (env.getTags rid) req.action req.overrideCode =
      ⟨false, some "override_required"⟩ ∧
    (execOne env req rid).fst.status = .blocked ∧
    (execOne env req rid).snd = [] ∧
    OutcomeStatus.blocked ≠ OutcomeStatus.failed := by
  have heval : evaluate env.cfg (env.getTags rid) req.action req.overrideCode =
      ⟨false, some "override_required"⟩ := by
    unfold evaluate
    rw [hprot, hdest]
    cases hoc : req.overrideCode with
    | none => simp
    | some c => simp [hcode c hoc]
  refine ⟨heval, ?_, ?_, by decide⟩ <;> simp [execOne, heval]

/-- Claim C2, concrete scenario: ec2 stop of [i-aaa, i-bbb] with the wrong
override code, i-aaa protected by env=production and i-bbb unprotected,
yields blocked then success, two audit rows, aggregate status failed. -/
theorem c2_override_required_witness :
    (evaluate scenarioEnv.cfg (scenarioEnv.getTags "i-aaa") scenarioReq.action
        scenarioReq.overrideCode = ⟨false, some "override_required"⟩ ∧
     (execOne scenarioEnv scenarioReq "i-aaa").fst.status = .blocked ∧
     (execOne scenarioEnv scenarioReq "i-aaa").snd = [] ∧
     OutcomeStatus.blocked ≠ OutcomeStatus.failed) ∧
    ((specRun scenarioEnv scenarioReq).outcomes.map ActionOutcome.status =
        [.blocked, .success] ∧
     (specRun scenarioEnv scenarioReq).audit.length = 2 ∧
     aggregateStatus (specRun scenarioEnv scenarioReq).outcomes = .failed) := by
  refine ⟨c2_override_required_blocks scenarioEnv scenarioReq "i-aaa"
    (by decide) (by decide) ?_, by decide⟩
  intro c hc
  have h0 : some "WRONG" = some c := hc
  have hcw : "WRONG" = c := Option.some.inj h0
  subst hcw
  decide

/-- Claim C3 fails as stated: a dry_run=true request whose target is
protected and whose override code is wrong yields a blocked outcome, not a
dry_run one — the policy check precedes the dry-run short-circuit. -/
theorem c3_counterexample :
    scenarioDryReq.dryRun = true ∧
    ((specRun scenarioEnv scenarioDryReq).outcomes.map ActionOutcome.status) =
      [.blocked, .dryRun] ∧
    OutcomeStatus.blocked ≠ OutcomeStatus.dryRun := by
  decide

/-- Claim C3, amended: for every request with dry_run=true no mutating
external call is issued for any resource id, and every per-resource outcome
has status dry_run except those blocked by the protection policy, which
have status blocked. -/
theorem c3_dry_run_amended (env : Env) (req : ActionRequest)
    (h : req.dryRun = true) :
    (specRun env req).mutatingCalls = [] ∧
    ∀ o ∈ (specRun env req).outcomes,
      o.status = .dryRun ∨ o.status = .blocked := by
  constructor
  · have hnil : ∀ l : List String,
        ((l.map fun rid => execOne env req rid).map Prod.snd).flatten = [] := by
      intro l
      induction l with
      | nil => rfl
      | cons a t ih =>
          simp only [List.map_cons, List.flatten_cons, ih, List.append_nil,
            (execOne_dryRun env req a h).1, List.nil_append]
    exact hnil req.resourceIds
  · intro o ho
    simp only [specRun, List.mem_map] at ho
    obtain ⟨r, ⟨rid, _, rfl⟩, rfl⟩ := ho
    exact (execOne_dryRun env req rid h).2

/-- Claim C3, amended, at the concrete dry-run scenario: no mutating call,
outcome statuses [blocked, dry_run]. -/
theorem c3_dry_run_witness :
    (specRun scenarioEnv scenarioDryReq).mutatingCalls = [] ∧
    ((specRun scenarioEnv scenarioDryReq).outcomes.map ActionOutcome.status) =
      [.blocked, .dryRun] :=
  ⟨(c3_dry_run_amended scenarioEnv scenarioDryReq rfl).1, by decide⟩

/-! ## Claims C4-C7 -/

/-- Claim C4: the aggregate status is success iff every outcome is success
or dry_run, is failed whenever any outcome failed, and the outcome at each
position depends only on the resource id at that position — a failure on
one id cannot change the reported result of another. -/
theorem c4_aggregate_status (env : Env) (req : ActionRequest) :
    (aggregateStatus (specRun env req).outcomes = .success ↔
      ∀ o ∈ (specRun env req).outcomes,
        o.status = .success ∨ o.status = .dryRun) ∧
    ((∃ o ∈ (specRun env req).outcomes, o.status = .failed) →
      aggregateStatus (specRun env req).outcomes = .failed) ∧
    (∀ i : Nat, (specRun env req).outcomes[i]? =
      (req.resourceIds[i]?).map (fun rid => (execOne env req rid).fst)) := by
  have hagg : ∀ outs : List ActionOutcome,
      (aggregateStatus outs = .success ↔
        ∀ o ∈ outs, o.status = .success ∨ o.status = .dryRun) := by
    intro outs
    rw [aggregateStatus]
    split
    next hall =>
      simp only [List.all_eq_true, Bool.or_eq_true, beq_iff_eq] at hall
      exact iff_of_true rfl hall
    next hall =>
      simp only [List.all_eq_true, Bool.or_eq_true, beq_iff_eq] at hall
      exact iff_of_false (by decide) hall
  have hfail : ∀ outs : List ActionOutcome,
      (∃ o ∈ outs, o.status = .failed) → aggregateStatus outs = .failed := by
    intro outs h
    obtain ⟨o, ho, hos⟩ := h
    rw [aggregateStatus]
    split
    next hall =>
      exfalso
      simp only [List.all_eq_true, Bool.or_eq_true, beq_iff_eq] at hall
      rcases hall o ho with h1 | h1 <;> rw [hos] at h1 <;>
        exact absurd h1 (by decide)
    next => rfl
  refine ⟨hagg _, hfail _, ?_⟩
  intro i
  show ((req.resourceIds.map fun rid => execOne env req rid).map
    Prod.fst)[i]? = _
  simp only [List.getElem?_map, Option.map_map]
  rfl

/-- Claim C4 at the three-id batch whose second external call raises: the
per-id outcomes are [success, failed, success] and the aggregate status is
failed. -/
theorem c4_aggregate_witness :
    ((specRun failingEnv failingReq3).outcomes.map ActionOutcome.status) =
      [.success, .failed, .success] ∧
    aggregateStatus (specRun failingEnv failingReq3).outcomes = .failed := by
  refine ⟨by decide, ?_⟩
  exact (c4_aggregate_status failingEnv failingReq3).2.1
    ⟨⟨"i-2", .failed, "InstanceNotFound"⟩, by decide, rfl⟩

/-- Claim C5: the Audit page export handler invokes the auditApi member
named export for both the CSV and the JSON buttons, but the auditApi object
of services/audit.ts defines only the member list — no export operation
exists in the client, so the export buttons cannot stream any rows. -/
theorem c5_export_member_missing :
    auditApiLookup auditPageExportMember = none ∧
    auditApiMembers.contains auditPageExportMember = false ∧
    auditApiLookup "list" = some auditListParams ∧
    auditApiMembers = ["list"] :=
  ⟨rfl, by decide, rfl, rfl⟩

/-- Claim C6 fails as stated: ecsScale issues its request with api.put, not
POST. -/
theorem c6_counterexample :
    (actionsApi.ecsScale "web" "api" 3).method ≠ HttpMethod.post := by
  decide

/-- The path template /actions/{resource_type}/{action}. -/
def actionPath (resourceType action : String) : String :=
  "/actions/" ++ resourceType ++ "/" ++ action

/-- Claim C6, amended: every actionsApi function except ecsScale issues a
POST to /actions/{resource_type}/{action} with body resource_ids, dry_run,
optional override_code and the action-specific parameters; ecsScale issues
a PUT to /actions/ecs/scale with the same body shape. -/
theorem c6_request_shapes (ids : List String) (db cluster service : String)
    (n : Int) (dr : Bool) (oc : Option String) :
    actionsApi.ec2Start ids dr =
      { method := .post, path := actionPath "ec2" "start"
      , resource_ids := ids, dry_run := dr
      , override_code := none, extraParams := [] } ∧
    actionsApi.ec2Stop ids dr oc =
      { method := .post, path := actionPath "ec2" "stop"
      , resource_ids := ids, dry_run := dr
      , override_code := oc, extraParams := [] } ∧
    actionsApi.ec2Terminate ids dr oc =
      { method := .post, path := actionPath "ec2" "terminate"
      , resource_ids := ids, dry_run := dr
      , override_code := oc, extraParams := [] } ∧
    actionsApi.rdsStart db dr =
      { method := .post, path := actionPath "rds" "start"
      , resource_ids := [db], dry_run := dr
      , override_code := none
      , extraParams := [("db_instance_identifier", db)] } ∧
    actionsApi.rdsStop db dr oc =
      { method := .post, path := actionPath "rds" "stop"
      , resource_ids := [db], dry_run := dr
      , override_code := oc
      , extraParams := [("db_instance_identifier", db)] } ∧
    actionsApi.ecsScale cluster service n dr =
      { method := .put, path := actionPath "ecs" "scale"
      , resource_ids := [cluster ++ "/" ++ service], dry_run := dr
      , override_code := none
      , extraParams := [("cluster", cluster), ("service", service),
                        ("desired_count", toString n)] } :=
  ⟨rfl, rfl, rfl, rfl, rfl, rfl⟩

/-- Claim C7: every audit row written on any code path stores the
normalized request after override_code redaction: the stored override_code
field is the redaction marker, never the cleartext code. -/
theorem c7_override_code_redacted (env : Env) (req : ActionRequest)
    (c : String) (hc : req.overrideCode = some c)
    (hne : c ≠ "[REDACTED]") :
    ∀ e ∈ (specRun env req).audit,
      List.lookup "override_code" e.requestData = some "[REDACTED]" ∧
      List.lookup "override_code" e.requestData ≠ some c := by
  intro e he
  have hdata : e.requestData = redactRequest req := by
    simp only [specRun, List.mem_map] at he
    obtain ⟨r, hr, rfl⟩ := he
    rfl
  rw [hdata]
  have hlook : List.lookup "override_code" (redactRequest req) =
      some "[REDACTED]" := by
    simp only [redactRequest, hc]
    rfl
  refine ⟨hlook, ?_⟩
  rw [hlook]
  intro hcontra
  exact hne (Option.some.inj hcontra).symm

/-- Claim C7 at the concrete scenario request carrying override code
WRONG: the stored field holds the marker, not WRONG. -/
theorem c7_redaction_witness :
    List.lookup "override_code" (redactRequest scenarioReq) =
      some "[REDACTED]" ∧
    List.lookup "override_code" (redactRequest scenarioReq) ≠
      some "WRONG" :=
  c7_override_code_redacted scenarioEnv scenarioReq "WRONG" rfl (by decide)
    (mkEntry scenarioReq ⟨"i-aaa", .blocked, "override_required"⟩)
    (by decide)

/-! ## Claims C8-C10 -/

/-- The dialog fires onConfirm only on a Confirm click with the typed input
exactly equal to the confirmText prop. -/
theorem dialogStep_confirmFired (t : String) (st : DialogState)
    (ev : DialogEvent)
    (h : (dialogStep t st ev).snd.confirmFired = true) :
    st.inputValue = t ∧ ev = .clickConfirm := by
  cases ev with
  | setInput s => simp [dialogStep] at h
  | clickConfirm =>
      refine ⟨?_, rfl⟩
      by_cases hbe : st.inputValue = t
      · exact hbe
      · have hfalse : (st.inputValue == t) = false := by
          simp [hbe]
        rw [dialogStep, hfalse] at h
        simp at h
  | clickClose => simp [dialogStep] at h

/-- Claim C8: onConfirm fires only when the typed input equals confirmText
by case-sensitive string equality; closing resets the input; on the
Inventory page the terminate mutation can only receive [resourceId] and
only once the typed input equals that exact resource id. -/
theorem c8_confirm_requires_exact_text (t rid : String) (st : DialogState)
    (ev : DialogEvent) (ids : List String) :
    ((dialogStep t st ev).snd.confirmFired = true →
      st.inputValue = t ∧ ev = .clickConfirm) ∧
    ((dialogStep t st .clickClose).fst.inputValue = "") ∧
    ((inventoryTerminateStep rid st ev).snd = some ids →
      st.inputValue = rid ∧ ids = [rid]) := by
  refine ⟨dialogStep_confirmFired t st ev, rfl, ?_⟩
  intro h
  simp only [inventoryTerminateStep] at h
  by_cases hf : (dialogStep rid st ev).snd.confirmFired = true
  · have hok := dialogStep_confirmFired rid st ev hf
    rw [if_pos hf] at h
    exact ⟨hok.1, (Option.some.inj h).symm⟩
  · rw [if_neg hf] at h
    simp at h

/-- Claim C8 at a concrete terminate dialog: with resource id i-0abc typed
exactly, a Confirm click hands [i-0abc] to the terminate mutation. -/
theorem c8_confirm_witness :
    (DialogState.mk "i-0abc").inputValue = "i-0abc" ∧
    (["i-0abc"] : List String) = ["i-0abc"] :=
  (c8_confirm_requires_exact_text "i-0abc" "i-0abc" ⟨"i-0abc"⟩
    .clickConfirm ["i-0abc"]).2.2 (by decide)

/-- Claim C9: every actionsApi function defaults dryRun to true, so a call
that omits the argument sends dry_run=true — a mutating request requires an
explicit dry_run=false. -/
theorem c9_dry_run_defaults (ids : List String)
    (db cluster service : String) (n : Int) :
    (actionsApi.ec2Start ids).dry_run = true ∧
    (actionsApi.ec2Stop ids).dry_run = true ∧
    (actionsApi.ec2Terminate ids).dry_run = true ∧
    (actionsApi.rdsStart db).dry_run = true ∧
    (actionsApi.rdsStop db).dry_run = true ∧
    (actionsApi.ecsScale cluster service n).dry_run = true :=
  ⟨rfl, rfl, rfl, rfl, rfl, rfl⟩

/-- Claim C10: on a 401 response the shared client calls logout, redirects
to /login and still rejects with the original error; on any other error
status it neither logs out nor redirects and rejects with the error
unchanged; successful responses pass through unchanged. -/
theorem c10_unauthorized_interceptor (e : AxiosErrorLike) (α : Type)
    (r : α) :
    (e.status = some 401 →
      onResponseError e =
        ({ logoutCalled := true, redirectTo := some "/login" },
         .rejected e)) ∧
    (e.status ≠ some 401 →
      onResponseError e =
        ({ logoutCalled := false, redirectTo := none }, .rejected e)) ∧
    onResponseSuccess r = r := by
  refine ⟨?_, ?_, rfl⟩ <;> intro h <;> simp [onResponseError, h]

/-- Claim C10 at concrete 401 and 500 errors. -/
theorem c10_interceptor_witness :
    onResponseError ⟨some 401⟩ =
      ({ logoutCalled := true, redirectTo := some "/login" },
       .rejected ⟨some 401⟩) ∧
    onResponseError ⟨some 500⟩ =
      ({ logoutCalled := false, redirectTo := none },
       .rejected ⟨some 500⟩) :=
  ⟨(c10_unauthorized_interceptor ⟨some 401⟩ Nat 0).1 rfl,
   (c10_unauthorized_interceptor ⟨some 500⟩ Nat 0).2.1 (by decide)⟩
